import Mathlib

/-!
Verification of the static code analyzer (src/checker.py, src/code_analyzer.py).

The embedding models Python strings as Lean `String`s (operating on their
`.data` character lists).  Python's `in` on strings is substring search
(`isSub`), `lstrip`/`strip` strip ASCII whitespace (`pyLstrip`/`pyStrip`;
the checker's inputs are ASCII, so the Unicode extras of Python's whitespace
set are irrelevant and not modelled), and the few regular expressions the
checker uses are compiled by hand into recursive matchers, each documented
next to its definition.  Fallible Python code (expressions that can raise
`IndexError`/`TypeError`) is modelled with `Except`.
-/

/-- ASCII whitespace, as recognised by Python's default `str.strip`,
`str.lstrip` and by the regex class `\s` on ASCII input. -/
def isWs (c : Char) : Bool :=
  c == ' ' || c == '\t' || c == '\n' || c == '\r' || c == '\x0b' || c == '\x0c'

/-- Uppercase ASCII letter, the regex class `[A-Z]`. -/
def isUpChar (c : Char) : Bool := 'A' ≤ c && c ≤ 'Z'

/-- Lowercase ASCII letter, the regex class `[a-z]`. -/
def lcase (c : Char) : Bool := 'a' ≤ c && c ≤ 'z'

/-- Decimal digit, the regex class `[0-9]`. -/
def isDigitChar (c : Char) : Bool := '0' ≤ c && c ≤ '9'

/-- List prefix test (used to build substring search). -/
def isPre : List Char → List Char → Bool
  | [], _ => true
  | _ :: _, [] => false
  | p :: ps, c :: cs => p == c && isPre ps cs

/-- Substring test: Python's `needle in haystack` on strings. -/
def isSub (n : List Char) : List Char → Bool
  | [] => isPre n []
  | c :: cs => isPre n (c :: cs) || isSub n cs

/-- Python `needle in haystack` lifted to `String`. -/
def strIn (n s : String) : Bool := isSub n.data s.data

/-- Python `str.lstrip()` on the character list. -/
def pyLstrip : List Char → List Char
  | [] => []
  | c :: cs => if isWs c then pyLstrip cs else c :: cs

/-- Python `str.rstrip()` on the character list. -/
def pyRstrip (l : List Char) : List Char := (pyLstrip l.reverse).reverse

/-- Python `str.strip()` on the character list. -/
def pyStrip (l : List Char) : List Char := pyRstrip (pyLstrip l)

/-- Python `line.split("#")[0]`: the characters before the first `#`
(the whole list when there is no `#`). -/
def beforeHash : List Char → List Char
  | [] => []
  | c :: cs => if c == '#' then [] else c :: beforeHash cs

/-- S001, `Checker.check_length`: `len(line) > 79`. -/
def check_length (line : String) : Bool := line.length > 79

/-- Count of leading space characters (the loop in `check_indentation`;
tabs and other whitespace stop the count). -/
def leadSp : List Char → Nat
  | ' ' :: cs => leadSp cs + 1
  | _ => 0

/-- S002, `Checker.check_indentation`: leading-space count not a multiple
of four. -/
def check_indentation (line : String) : Bool := leadSp line.data % 4 != 0

/-- S003, `Checker.check_semicolons`.  The source is

    code = line.split("#")[0]
    if len(code) > 0:
        return code.strip()[-1] == ";"

When `len(code) == 0` the function falls through and returns `None`, which
the caller treats as false: modelled as `Except.ok false`.  When `code` is
non-empty but consists only of whitespace, `code.strip()` is empty and the
index `[-1]` raises `IndexError`: modelled as `Except.error ()`. -/
def check_semicolons (line : String) : Except Unit Bool :=
  let code := beforeHash line.data
  if code.length > 0 then
    match (pyStrip code).getLast? with
    | some c => Except.ok (c == ';')
    | none => Except.error ()
  else Except.ok false

/-- S004, `Checker.check_inline_comments`:
`"  #" not in line and "#" in line and line[0] != "#"`.  The index `line[0]`
is only reached when `"#" in line`, so the line is non-empty there; the
empty-list branch below is unreachable in that case. -/
def check_inline_comments (line : String) : Bool :=
  !(strIn "  #" line) && strIn "#" line &&
    (match line.data with
     | [] => false
     | c :: _ => !(c == '#'))

/-- ASCII lowering, Python's `str.casefold()` restricted to ASCII input. -/
def toLow (c : Char) : Char :=
  if 'A' ≤ c && c ≤ 'Z' then Char.ofNat (c.toNat + 32) else c

/-- S005, `Checker.check_todos`: after casefolding, `"#todo" in line or
"# todo" in line`. -/
def check_todos (line : String) : Bool :=
  let low := line.data.map toLow
  isSub "#todo".data low || isSub "# todo".data low

/-- S006, `Checker.check_blank_lines`: needs `i > 2` (otherwise the implicit
`None` return is falsy), then `lines[i-3:i] == ["", "", ""] and
lines[i] != ""`. -/
def check_blank_lines (lines : List String) (i : Nat) : Bool :=
  if i > 2 then
    ((lines.drop (i - 3)).take 3 == ["", "", ""]) && !(lines.getD i "" == "")
  else false

/-- Two whitespace characters follow: the regex `\s{2,}` at the end of a
pattern succeeds exactly when the next two characters are whitespace. -/
def twoWs : List Char → Bool
  | c1 :: c2 :: _ => isWs c1 && isWs c2
  | _ => false

/-- The regex `(class|def)\s{2,}` matched at the start of the list
(`re.match`): the alternatives have distinct first letters, so the match
succeeds exactly when the list starts with `class` or `def` followed by at
least two whitespace characters. -/
def matchClassDefSpaces (l : List Char) : Bool :=
  (isPre "class".data l && twoWs (l.drop 5)) ||
    (isPre "def".data l && twoWs (l.drop 3))

/-- S007, `Checker.check_spaces`:
`('class' in line or 'def' in line) and re.match(r'(class|def)\s{2,}', line.lstrip())`. -/
def check_spaces (line : String) : Bool :=
  (strIn "class" line || strIn "def" line) &&
    matchClassDefSpaces (pyLstrip line.data)

/-- Tail of the regex `\s*[A-Z]` with backtracking: succeeds when some
(possibly empty) run of whitespace is followed by an uppercase letter. -/
def upAfterWs : List Char → Bool
  | [] => false
  | c :: cs => isUpChar c || (isWs c && upAfterWs cs)

/-- The regex `^class\s+[A-Z]` matched at the start of the list. -/
def matchClassUpper (l : List Char) : Bool :=
  isPre "class".data l &&
    (match l.drop 5 with
     | [] => false
     | c :: cs => isWs c && upAfterWs cs)

/-- S008, `Checker.check_class_name`:
`'class' in line and not re.match(r'^class\s+[A-Z]', line)` (the regex runs
on the original line, not the left-stripped one). -/
def check_class_name (line : String) : Bool :=
  strIn "class" line && !(matchClassUpper line.data)

/-- Tail of the regex `\s*[^A-Z]` with backtracking: succeeds when some
(possibly empty) run of whitespace is followed by a character that is not an
uppercase letter. -/
def nonUpAfterWs : List Char → Bool
  | [] => false
  | c :: cs => !(isUpChar c) || (isWs c && nonUpAfterWs cs)

/-- The regex `^def\s+[^A-Z]` matched at the start of the list. -/
def matchDefNonUpper (l : List Char) : Bool :=
  isPre "def".data l &&
    (match l.drop 3 with
     | [] => false
     | c :: cs => isWs c && nonUpAfterWs cs)

/-- S009, `Checker.check_func_name`:
`'def' in line and not re.match(r'^def\s+[^A-Z]', line.lstrip())`. -/
def check_func_name (line : String) : Bool :=
  strIn "def" line && !(matchDefNonUpper (pyLstrip line.data))

/-- An `ast.arg` node: a declared parameter. -/
structure PyArg where
  arg : String
  deriving DecidableEq

/-- The default-argument expressions `Checker.check_mutable_value` inspects:
the literal constructors `ast.List`/`ast.Set`/`ast.Dict`, a call
`ast.Call` whose `func` is a plain name (`def_arg.func.id`), and anything
else. -/
inductive PyExpr where
  | elist
  | eset
  | edict
  | call (id : String)
  | othExpr
  deriving DecidableEq

/-- An `ast.FunctionDef` node, with the fields the checker reads:
`name`, `args.args` and `args.defaults`. -/
structure FuncDef where
  name : String
  args : List PyArg
  defaults : List PyExpr
  deriving DecidableEq

/-- An `ast.Name` node: its identifier and whether its `ctx` is
`ast.Store`. -/
structure NameNode where
  id : String
  isStore : Bool
  deriving DecidableEq

/-- The "snake_case" regex of S010/S011,
`re.match("(_\x7b,2\x7d)?[a-z]+(_[a-z]*)*(_\x7b,2\x7d)?", name)`.
`re.match` only anchors at the start, and the groups after `[a-z]+` can
match the empty string, so the match succeeds exactly when the name starts
with zero, one or two underscores followed by a lowercase letter; the
function below is that residual test. -/
def snakeMatch : List Char → Bool
  | [] => false
  | c :: cs =>
    if c == '_' then
      match cs with
      | [] => false
      | c2 :: cs2 =>
        if c2 == '_' then
          match cs2 with
          | [] => false
          | c3 :: _ => lcase c3
        else lcase c2
    else lcase c

/-- The snake_case test on a `String`. -/
def snakeMatchS (s : String) : Bool := snakeMatch s.data

/-- S010 candidate set, `Checker.check_argument_name`: every declared
parameter name of every function that fails the snake_case test.  The
Python code collects the names into a `set`; the model returns a duplicate-
free list and theorems that depend on the order quantify over its
permutations. -/
def check_argument_name (functions : List FuncDef) : List String :=
  ((functions.flatMap fun f => f.args.map fun a => a.arg).filter
    fun a => !(snakeMatchS a)).dedup

/-- S011 candidate set, `Checker.check_variable_name`: every `ast.Name`
whose `ctx` is `ast.Store` and whose identifier fails the snake_case
test. -/
def check_variable_name (nameNodes : List NameNode) : List String :=
  (((nameNodes.filter fun v => v.isStore).map fun v => v.id).filter
    fun v => !(snakeMatchS v)).dedup

/-- An element of the S012 candidate set.  For a literal list/set/dict
default the source adds `f.name` (a string, `Sum.inl`); for a constructor
call default it adds `f` itself — the whole `ast.FunctionDef` node, not its
name (`warnings.add(f)` where the sibling branch uses `f.name`) — modelled
as `Sum.inr`. -/
abbrev MutCand := Sum String FuncDef

/-- S012 candidate set, `Checker.check_mutable_value`.  (Python deduplicates
the node entries by object identity; structural equality of `FuncDef`
coincides with it for all inputs considered here.) -/
def check_mutable_value (functions : List FuncDef) : List MutCand :=
  (functions.flatMap fun f =>
    f.defaults.filterMap fun d =>
      match d with
      | PyExpr.elist => some (Sum.inl f.name)
      | PyExpr.eset => some (Sum.inl f.name)
      | PyExpr.edict => some (Sum.inl f.name)
      | PyExpr.call id =>
        if id == "set" || id == "list" || id == "dict" then some (Sum.inr f)
        else none
      | PyExpr.othExpr => none).dedup

/-- One pass of the S010/S011 while-loop of `Checker.test` over one line:

    j = 0
    while j < len(cands):
        if cands[j] in line: emit; cands.remove(cands[j])
        else: j += 1

After a removal `j` is left unchanged, so the scan continues with the next
candidate: the loop removes (and emits once for) every candidate that is a
substring of the line and keeps the rest in order.  Returns
(removed candidates in order, remaining candidates). -/
def consumeAll (l : String) : List String → List String × List String
  | [] => ([], [])
  | c :: cs =>
    let r := consumeAll l cs
    if isSub c.data l.data then (c :: r.1, r.2) else (r.1, c :: r.2)

/-- The whole-file matching procedure for one string candidate set:
iterate the lines (numbering the first line `n`), at each line run the
while-loop above, and record `(line number, candidate)` for every removal.
This is the S010/S011 portion of `Checker.test` with the matched candidate
remembered, so that a diagnostic can be attributed to the name that
produced it. -/
def matchTrace : List String → List String → Nat → List (Nat × String)
  | _, [], _ => []
  | cands, l :: ls, n =>
    let r := consumeAll l cands
    (r.1.map fun c => (n, c)) ++ matchTrace r.2 ls (n + 1)

/-- The S012 while-loop of `Checker.test` over one line.  A `Sum.inr`
candidate (a raw `FunctionDef` node) makes `cands[j] in line` raise
`TypeError`, aborting the whole run: `Except.error k` where `k` is the
number of S012 diagnostics emitted on this line before the crash.
`Except.ok (k, rest)` gives the emission count and the surviving
candidates. -/
def s012Loop (l : String) : List MutCand → Except Nat (Nat × List MutCand)
  | [] => Except.ok (0, [])
  | Sum.inl s :: cs =>
    if isSub s.data l.data then
      match s012Loop l cs with
      | Except.ok (n, k) => Except.ok (n + 1, k)
      | Except.error n => Except.error (n + 1)
    else
      match s012Loop l cs with
      | Except.ok (n, k) => Except.ok (n, Sum.inl s :: k)
      | Except.error n => Except.error n
  | Sum.inr _ :: _ => Except.error 0

/-- The twelve rule codes. -/
inductive RuleCode where
  | s001 | s002 | s003 | s004 | s005 | s006 | s007 | s008 | s009 | s010 | s011 | s012
  deriving DecidableEq

/-- Numeric position of a code in the fixed emission order S001..S012. -/
def RuleCode.idx : RuleCode → Nat
  | .s001 => 1
  | .s002 => 2
  | .s003 => 3
  | .s004 => 4
  | .s005 => 5
  | .s006 => 6
  | .s007 => 7
  | .s008 => 8
  | .s009 => 9
  | .s010 => 10
  | .s011 => 11
  | .s012 => 12

/-- One emitted diagnostic: 1-based line number and rule code.  The printed
text is `f"<path>: Line <line>: <CODE> <message>"` where the message is the
fixed table entry for the code, with the name slot of S007/S008/S009 filled
from the line's own text — a deterministic function of (path, line text,
line number, code), so diagnostics are modelled by this pair. -/
structure Diag where
  line : Nat
  code : RuleCode
  deriving DecidableEq

/-- Emission of a single diagnostic guarded by a boolean check. -/
def emitIf (b : Bool) (c : RuleCode) : List RuleCode :=
  List.replicate (if b then 1 else 0) c

/-- Python `re.split(' +', s)`: split on maximal runs of spaces (a leading
or trailing run produces an empty field). -/
def splitSp : List Char → List (List Char)
  | [] => [[]]
  | ' ' :: ' ' :: cs => splitSp (' ' :: cs)
  | ' ' :: cs => [] :: splitSp cs
  | c :: cs =>
    match splitSp cs with
    | t :: ts => (c :: t) :: ts
    | [] => [[c]]

/-- The regex class `\w` on ASCII input. -/
def isWordChar (c : Char) : Bool :=
  lcase c || isUpChar c || isDigitChar c || c == '_'

/-- Name extraction of S008/S009 in `Checker.test`:
`re.split(' +', line)[1]` then `re.sub(r'\W+', '', name)`.  `none` when the
split has no second field, in which case the index raises `IndexError`. -/
def extractName (line : String) : Option (List Char) :=
  (splitSp line.data)[1]?.map fun t => t.filter isWordChar

/-- The S008 step of `Checker.test` on one line: if `check_class_name`
fires, the name is extracted before printing — `Except.error` when the
extraction raises; otherwise whether an S008 diagnostic is printed. -/
def s008Emit (line : String) : Except Unit Bool :=
  if check_class_name line then
    match extractName line with
    | some _ => Except.ok true
    | none => Except.error ()
  else Except.ok false

/-- The S009 step of `Checker.test` on one line, as for S008. -/
def s009Emit (line : String) : Except Unit Bool :=
  if check_func_name line then
    match extractName line with
    | some _ => Except.ok true
    | none => Except.error ()
  else Except.ok false

/-- The per-file mutable state of `Checker.test`: the three candidate
lists built before the line loop. -/
structure CheckSt where
  checked_args : List String
  checked_variables : List String
  checked_default_variables : List MutCand
  deriving DecidableEq

/-- One iteration of the line loop of `Checker.test` (line index `i`,
0-based): the nine line detectors in code order, then the three
match-and-consume loops.  `Except.error cs` means the iteration raised
(S003's `IndexError`, S008/S009's extraction `IndexError`, or S012's
`TypeError` on a node candidate) after emitting the codes `cs`;
`Except.ok (cs, st)` gives the emitted codes and the updated candidate
state. -/
def lineStep (lines : List String) (i : Nat) (st : CheckSt) :
    Except (List RuleCode) (List RuleCode × CheckSt) :=
  let l := lines.getD i ""
  let b2 := emitIf (check_length l) RuleCode.s001 ++
    emitIf (check_indentation l) RuleCode.s002
  match check_semicolons l with
  | Except.error _ => Except.error b2
  | Except.ok v3 =>
    let b7 := b2 ++ emitIf v3 RuleCode.s003 ++
      emitIf (check_inline_comments l) RuleCode.s004 ++
      emitIf (check_todos l) RuleCode.s005 ++
      emitIf (check_blank_lines lines i) RuleCode.s006 ++
      emitIf (check_spaces l) RuleCode.s007
    match s008Emit l with
    | Except.error _ => Except.error b7
    | Except.ok v8 =>
      let b8 := b7 ++ emitIf v8 RuleCode.s008
      match s009Emit l with
      | Except.error _ => Except.error b8
      | Except.ok v9 =>
        let b9 := b8 ++ emitIf v9 RuleCode.s009
        let p10 := consumeAll l st.checked_args
        let p11 := consumeAll l st.checked_variables
        let b11 := b9 ++ List.replicate p10.1.length RuleCode.s010 ++
          List.replicate p11.1.length RuleCode.s011
        match s012Loop l st.checked_default_variables with
        | Except.error n => Except.error (b11 ++ List.replicate n RuleCode.s012)
        | Except.ok (n, k12) =>
          Except.ok (b11 ++ List.replicate n RuleCode.s012, ⟨p10.2, p11.2, k12⟩)

/-- The line loop of `Checker.test` from line index `i` with `fuel`
remaining lines: collects the diagnostics of each line in order; a raising
iteration ends the run (second component `false`) after its partial
output, as the exception propagates out of `Checker.test`. -/
def runFromAux (lines : List String) : Nat → Nat → CheckSt → List Diag × Bool
  | 0, _, _ => ([], true)
  | fuel + 1, i, st =>
    match lineStep lines i st with
    | Except.error cs => (cs.map fun c => ⟨i + 1, c⟩, false)
    | Except.ok (cs, st2) =>
      let r := runFromAux lines fuel (i + 1) st2
      ((cs.map fun c => ⟨i + 1, c⟩) ++ r.1, r.2)

/-- `Checker.test` on one file, given its rstripped lines and the three
candidate lists (`list(...)` of the sets built by `check_argument_name`,
`check_variable_name`, `check_mutable_value`): the emitted diagnostics in
order and whether the run completed without an exception. -/
def runCheck (lines : List String) (args vars : List String)
    (muts : List MutCand) : List Diag × Bool :=
  runFromAux lines lines.length 0 ⟨args, vars, muts⟩

/-- Lexicographic comparison of character lists by code point: Python's
`<=` on strings. -/
def lexLe : List Char → List Char → Bool
  | [], _ => true
  | _ :: _, [] => false
  | a :: as1, b :: bs => if a = b then lexLe as1 bs else decide (a < b)

/-- Python string comparison lifted to `String`. -/
def strLe (a b : String) : Bool := lexLe a.data b.data

/-- Python `sorted` on file names: lexicographic by code point.  Insertion
sort over a linear order returns the unique sorted permutation, which is
what `sorted` returns. -/
def sortNames (l : List String) : List String :=
  List.insertionSort (fun a b => strLe a b = true) l

/-- Tail of the regex `.py` inside `test_[0-9]*.py`: the dot is unescaped,
so it matches any character, followed by the literals `p`, `y`; `re.match`
does not anchor the end, so anything may follow. -/
def dotPy : List Char → Bool
  | _ :: 'p' :: 'y' :: _ => true
  | _ => false

/-- Tail of the regex `[0-9]*.py` with backtracking: either `.py` (as
`dotPy`) matches right here, or one more digit is consumed. -/
def digitsThenPy : List Char → Bool
  | [] => false
  | c :: cs => dotPy (c :: cs) || (isDigitChar c && digitsThenPy cs)

/-- The filter of `main` in src/code_analyzer.py:
`re.match("test_[0-9]*.py", file)` — a prefix match of `test_`, zero or
more digits, one arbitrary character, then `py`. -/
def reTestMatch (s : String) : Bool :=
  match s.data with
  | 't' :: 'e' :: 's' :: 't' :: '_' :: rest => digitsThenPy rest
  | _ => false

/-- Directory mode of `main`: `for file in sorted(os.listdir(path)): if
re.match("test_[0-9]*.py", file): Checker.test(...)` — the matched entries
in the order in which they are checked. -/
def checkedFiles (entries : List String) : List String :=
  (sortNames entries).filter reTestMatch

/-- The directory loop of `main` with the per-file outcome abstracted as
`parseOk` (whether `ast.parse` succeeds on that file's content):
`Checker.test` has no exception handler, so a parse failure propagates and
ends the loop.  Returns the files fully processed, and whether the loop
completed. -/
def runDir (parseOk : String → Bool) : List String → List String × Bool
  | [] => ([], true)
  | f :: fs =>
    if parseOk f then
      let r := runDir parseOk fs
      (f :: r.1, r.2)
    else ([], false)

/-- Directory mode of `main` end to end: enumerate, filter, sort, then
check each matched file in order. -/
def mainDir (parseOk : String → Bool) (entries : List String) :
    List String × Bool :=
  runDir parseOk (checkedFiles entries)

/-- The file-name shape named by the specification for directory mode:
`test_` followed by digits (at least one) and the `.py` extension, as the
entire name.  (This is the specification's reading, defined for comparison
with `reTestMatch`, which is what the code runs.) -/
def restDotPy : List Char → Bool
  | '.' :: 'p' :: 'y' :: [] => true
  | c :: cs => isDigitChar c && restDotPy cs
  | [] => false

/-- Whole-name form `test_<digits>.py` with at least one digit (the claim's
description of which files are checked). -/
def specTestFileName (s : String) : Bool :=
  match s.data with
  | 't' :: 'e' :: 's' :: 't' :: '_' :: c :: rest => isDigitChar c && restDotPy rest
  | _ => false

/-- Whether a name's first character is a lowercase ASCII letter. -/
def startsLower (s : String) : Bool :=
  match s.data with
  | [] => false
  | c :: _ => lcase c

/-- The matching relation of the regex `^def\s+[^A-Z]` stated directly (the
specification's description): the list is `def`, then a non-empty run of
whitespace, then a character that is not an uppercase letter. -/
def S9Spec (l : List Char) : Prop :=
  ∃ w c rest, l = 'd' :: 'e' :: 'f' :: (w ++ c :: rest) ∧ w ≠ [] ∧
    (∀ x ∈ w, isWs x = true) ∧ isUpChar c = false

/-- Emission order on rule codes. -/
def codeLe (a b : RuleCode) : Prop := a.idx ≤ b.idx

/-- The claimed output order on diagnostics: ascending line number, and for
equal lines ascending code order. -/
def diagLe (a b : Diag) : Prop :=
  a.line < b.line ∨ (a.line = b.line ∧ a.code.idx ≤ b.code.idx)

example : check_length (String.mk (List.replicate 80 'x')) = true := by decide

example : check_semicolons "x = 1;" = Except.ok true := rfl

example : check_semicolons "x = 1;  # ok" = Except.ok true := rfl

example : check_semicolons "" = Except.ok false := rfl

example : check_semicolons "    # comment" = Except.error () := rfl

example : check_inline_comments "x = 1 # c" = true := by decide

example : check_inline_comments "x = 1  # c" = false := by decide

example : check_todos "# TODO fix" = true := by decide

example : check_spaces "class   Foo:" = true := by decide

example : check_spaces "class Foo:" = false := by decide

example : check_class_name "class foo:" = true := by decide

example : check_class_name "class Foo:" = false := by decide

example : check_func_name "def Foo():" = true := by decide

example : check_func_name "def foo():" = false := by decide

example : check_func_name "def my_Func():" = false := by decide

example : check_argument_name [⟨"f", [⟨"A"⟩, ⟨"B"⟩], []⟩] = ["A", "B"] := by decide

example : check_argument_name [⟨"f", [⟨"bad__Name"⟩], []⟩] = [] := by decide

example : check_variable_name [⟨"X", true⟩, ⟨"Y", false⟩] = ["X"] := by decide

example :
    check_mutable_value [⟨"f", [⟨"x"⟩], [PyExpr.call "list"]⟩] =
      [Sum.inr ⟨"f", [⟨"x"⟩], [PyExpr.call "list"]⟩] := by decide

example :
    runCheck ["def f(A, B):"] ["A", "B"] [] [] =
      ([⟨1, RuleCode.s010⟩, ⟨1, RuleCode.s010⟩], true) := by decide

example : reTestMatch "test_1.py" = true := by decide

example : reTestMatch "test_12.py" = true := by decide

example : reTestMatch "other.py" = false := by decide

example : reTestMatch "test_1.pyc" = true := by decide

example : reTestMatch "test_.py" = true := by decide

example : specTestFileName "test_1.py" = true := by decide

example : specTestFileName "test_1.pyc" = false := by decide

example : checkedFiles ["test_2.py", "test_1.py", "other.py"] = ["test_1.py", "test_2.py"] := by decide

/-- Index (0-based) of the first line that contains `c` as a substring. -/
def firstHit (c : String) : List String → Option Nat
  | [] => none
  | l :: ls => if isSub c.data l.data then some 0 else (firstHit c ls).map (· + 1)

/-- Helper: a list whose candidates fail snake_case never contains a name
that passes it. -/
theorem not_mem_of_snake (l : List String) (s : String) (hs : snakeMatchS s = true) :
    s ∉ (l.filter fun a => !(snakeMatchS a)).dedup := by
  intro hmem
  rw [List.mem_dedup] at hmem
  have h := List.of_mem_filter hmem
  rw [hs] at h
  exact absurd h (by decide)

/-- Helper: a name whose first character is lowercase passes the snake_case
residual test (the first character is not an underscore, and the
`[a-z]` requirement is met immediately). -/
theorem snakeMatch_of_lcase (c : Char) (cs : List Char) (hc : lcase c = true) :
    snakeMatch (c :: cs) = true := by
  have hne : (c == '_') = false := by
    cases h2 : c == '_'
    · rfl
    · exact absurd hc (by rw [eq_of_beq h2]; decide)
  simp [snakeMatch, hne, hc]

/-- Claim C10: a parameter name (S010) or store-context identifier (S011)
whose first character is a lowercase ASCII letter always passes the
snake_case test — the regex is matched only as a prefix — so it never
enters the S010 or S011 candidate set and produces no diagnostic. -/
theorem c10_lowercase_start_never_flagged (funcs : List FuncDef)
    (nodes : List NameNode) (s : String) (h : startsLower s = true) :
    snakeMatchS s = true ∧ s ∉ check_argument_name funcs ∧
      s ∉ check_variable_name nodes := by
  have hsm : snakeMatchS s = true := by
    unfold startsLower at h
    unfold snakeMatchS
    cases hd : s.data with
    | nil => rw [hd] at h; exact absurd h (by decide)
    | cons c cs =>
      rw [hd] at h
      exact snakeMatch_of_lcase c cs h
  exact ⟨hsm, not_mem_of_snake _ _ hsm, not_mem_of_snake _ _ hsm⟩

/-- Witness for C10 at the names from the claim: `badName` starts lowercase
and is flagged by neither S010 nor S011. -/
theorem c10_lowercase_start_never_flagged_witness :
    startsLower "badName" = true ∧
      (snakeMatchS "badName" = true ∧
        "badName" ∉ check_argument_name [⟨"f", [⟨"badName"⟩], []⟩] ∧
        "badName" ∉ check_variable_name [⟨"badName", true⟩]) :=
  ⟨by decide, c10_lowercase_start_never_flagged _ _ _ (by decide)⟩

/-- Claim C1 (code bug): for `def f(x=list()):` the source was meant to add
the function's name to the S012 set (as the literal branch does and as the
spec states), but `check_mutable_value` adds the `FunctionDef` node itself
(`warnings.add(f)`), so the candidate is `Sum.inr` the node; the later
substring test `candidate in line` then raises `TypeError` and the run ends
with no diagnostics at all instead of one S012 naming `f`. -/
theorem c1_mutable_call_default_crashes :
    check_mutable_value [⟨"f", [⟨"x"⟩], [PyExpr.call "list"]⟩] =
      [Sum.inr ⟨"f", [⟨"x"⟩], [PyExpr.call "list"]⟩] ∧
    runCheck ["def f(x=list()):"]
      (check_argument_name [⟨"f", [⟨"x"⟩], [PyExpr.call "list"]⟩])
      (check_variable_name [⟨"list", false⟩])
      (check_mutable_value [⟨"f", [⟨"x"⟩], [PyExpr.call "list"]⟩]) =
        ([], false) :=
  ⟨by decide, by decide⟩

/-- Claim C2 (code bug): `main` has no exception handler, so in directory
mode a parse failure of `test_1.py` aborts the loop and `test_2.py` is
never checked (first conjunct: nothing is processed), although with both
files parseable both are checked in order (second conjunct). -/
theorem c2_parse_failure_aborts_remaining :
    mainDir (fun f => f == "test_2.py") ["test_2.py", "test_1.py"] =
      ([], false) ∧
    mainDir (fun _ => true) ["test_2.py", "test_1.py"] =
      (["test_1.py", "test_2.py"], true) :=
  ⟨by decide, by decide⟩

/-- Claim C3 (code bug): `check_semicolons` is not total — on a line whose
portion before the first `#` is non-empty whitespace (an indented
comment-only line) `code.strip()[-1]` raises `IndexError`, so the whole
check of the file aborts, while blank lines and unindented comment lines
yield non-violated as the claim states. -/
theorem c3_semicolon_whitespace_crash :
    check_semicolons "    # comment" = Except.error () ∧
    check_semicolons "" = Except.ok false ∧
    check_semicolons "# whole-line comment" = Except.ok false ∧
    runCheck ["    # comment"] [] [] [] = ([], false) :=
  ⟨rfl, rfl, rfl, by decide⟩

/-- Counterexample to claim C5: on the line `def f(A, B):` both failing
parameter names `A` and `B` are substrings, and the while-loop does not
stop after the first match — it consumes every matching candidate — so TWO
S010 diagnostics are emitted on one line. -/
theorem c5_two_s010_on_one_line :
    check_argument_name [⟨"f", [⟨"A"⟩, ⟨"B"⟩], []⟩] = ["A", "B"] ∧
    runCheck ["def f(A, B):"] ["A", "B"] [] [] =
      ([⟨1, RuleCode.s010⟩, ⟨1, RuleCode.s010⟩], true) :=
  ⟨by decide, by decide⟩

/-- Counterexample to claim C9: `test_1.pyc` is not of the form
`test_<digits>.py`, yet the unanchored prefix regex `test_[0-9]*.py`
accepts it, so directory mode checks it. -/
theorem c9_checks_nonconforming_name :
    checkedFiles ["test_1.pyc"] = ["test_1.pyc"] ∧
      specTestFileName "test_1.pyc" = false :=
  ⟨by decide, by decide⟩

/-- The while-loop pass over one line is a partition of the candidate list:
matching candidates are removed (in order), the rest kept (in order). -/
theorem consumeAll_eq_filter (l : String) (cs : List String) :
    consumeAll l cs =
      (cs.filter fun c => isSub c.data l.data,
        cs.filter fun c => !(isSub c.data l.data)) := by
  induction cs with
  | nil => rfl
  | cons a as ih =>
    rw [consumeAll, ih]
    by_cases h : isSub a.data l.data = true
    · simp [h]
    · simp [h, Bool.eq_false_iff.mpr h]

/-- Filtering a tagged copy of a list for one name commutes with tagging. -/
theorem filter_snd_map (n : Nat) (c : String) (l : List String) :
    ((l.map fun x => (n, x)).filter fun p => p.2 == c) =
      (l.filter fun x => x == c).map fun x => (n, x) := by
  induction l with
  | nil => rfl
  | cons a as ih =>
    by_cases h : (a == c) = true
    · simp [h, ih]
    · simp [h, ih]

/-- A name absent from a list leaves nothing when filtering for it. -/
theorem filter_beq_nil (c : String) (l : List String) (h : c ∉ l) :
    l.filter (fun x => x == c) = [] := by
  induction l with
  | nil => rfl
  | cons a as ih =>
    have hne : (a == c) = false := by
      cases hb : a == c
      · rfl
      · exact absurd (List.mem_cons_self a as) (by rw [eq_of_beq hb] at h ⊢; exact fun _ => h (List.mem_cons_self c as))
    rw [List.filter_cons, hne]
    exact ih fun hm => h (List.mem_cons_of_mem a hm)

/-- A duplicate-free list containing a name leaves exactly that name when
filtering for it. -/
theorem filter_beq_single (c : String) (l : List String) (hnd : l.Nodup)
    (hm : c ∈ l) : l.filter (fun x => x == c) = [c] := by
  induction l with
  | nil => cases hm
  | cons a as ih =>
    rcases List.mem_cons.mp hm with h | h
    · subst h
      rw [List.filter_cons]
      simp only [beq_self_eq_true, if_pos]
      rw [filter_beq_nil c as (List.Nodup.not_mem hnd)]
    · have hne : (a == c) = false := by
        cases hb : a == c
        · rfl
        · exact absurd h (by rw [← eq_of_beq hb]; exact List.Nodup.not_mem hnd)
      rw [List.filter_cons, hne]
      exact ih (List.Nodup.of_cons hnd) h

/-- A candidate not in the set never appears in the matching trace. -/
theorem matchTrace_filter_not_mem (lines : List String) :
    ∀ (cands : List String) (c : String) (n : Nat), c ∉ cands →
      (matchTrace cands lines n).filter (fun p => p.2 == c) = [] := by
  induction lines with
  | nil => intro cands c n _; rfl
  | cons l ls ih =>
    intro cands c n hc
    rw [matchTrace, consumeAll_eq_filter, List.filter_append, filter_snd_map]
    have h1 : (cands.filter fun x => isSub x.data l.data).filter (fun x => x == c) = [] :=
      filter_beq_nil c _ fun hm => hc (List.mem_of_mem_filter hm)
    have h2 : c ∉ cands.filter fun x => !(isSub x.data l.data) :=
      fun hm => hc (List.mem_of_mem_filter hm)
    rw [h1, ih _ c (n + 1) h2]
    rfl

/-- Core of claim C4: for a duplicate-free candidate set containing `c`,
the matching trace (lines numbered from `n`) records `c` exactly once, at
the first line that contains `c` as a substring. -/
theorem matchTrace_filter_mem (lines : List String) :
    ∀ (cands : List String) (c : String) (n j : Nat), cands.Nodup →
      c ∈ cands → firstHit c lines = some j →
      (matchTrace cands lines n).filter (fun p => p.2 == c) = [(n + j, c)] := by
  induction lines with
  | nil => intro cands c n j _ _ hfh; cases hfh
  | cons l ls ih =>
    intro cands c n j hnd hmem hfh
    rw [firstHit] at hfh
    rw [matchTrace, consumeAll_eq_filter, List.filter_append, filter_snd_map]
    by_cases hp : isSub c.data l.data = true
    · rw [if_pos hp] at hfh
      injection hfh with hj
      subst hj
      have hmf : c ∈ cands.filter fun x => isSub x.data l.data :=
        List.mem_filter.mpr ⟨hmem, hp⟩
      rw [filter_beq_single c _ (List.Nodup.filter _ hnd) hmf]
      have h2 : c ∉ cands.filter fun x => !(isSub x.data l.data) := by
        intro hm
        have := List.of_mem_filter hm
        rw [hp] at this
        exact absurd this (by decide)
      rw [matchTrace_filter_not_mem ls _ c (n + 1) h2]
      simp
    · rw [if_neg hp] at hfh
      cases hls : firstHit c ls with
      | none => rw [hls] at hfh; cases hfh
      | some j2 =>
        rw [hls] at hfh
        have hj : j2 + 1 = j := by simpa using hfh
        have h1 : (cands.filter fun x => isSub x.data l.data).filter (fun x => x == c) = [] := by
          apply filter_beq_nil
          intro hm
          exact hp (List.mem_filter.mp hm).2
        have h2 : c ∈ cands.filter fun x => !(isSub x.data l.data) :=
          List.mem_filter.mpr ⟨hmem, by rw [Bool.eq_false_iff.mpr hp]; rfl⟩
        rw [h1, ih _ c (n + 1) j2 (List.Nodup.filter _ hnd) h2 hls]
        simp only [List.nil_append, List.map_nil]
        have : n + 1 + j2 = n + j := by omega
        rw [this]

/-- Claim C4: every declared parameter name that fails the snake_case test
(an element of the S010 candidate set) is matched exactly once, at the
first line whose text contains it as a substring, and never again — the
trace of the S010 match-and-consume loop over the whole file contains
exactly one entry for that name, at line `1 + j` where `j` is the index of
the first line containing it. -/
theorem c4_s010_once_at_first_line (funcs : List FuncDef)
    (cands lines : List String) (c : String) (j : Nat)
    (hnd : cands.Nodup)
    (hset : ∀ x, x ∈ cands ↔ x ∈ check_argument_name funcs)
    (hc : c ∈ check_argument_name funcs)
    (hfh : firstHit c lines = some j) :
    (matchTrace cands lines 1).filter (fun p => p.2 == c) = [(1 + j, c)] :=
  matchTrace_filter_mem lines cands c 1 j hnd ((hset c).mpr hc) hfh

/-- Witness for C4 at the spec's example: `Bad_Name` is declared in
`def f(Bad_Name):` and recurs on a later line, yet the trace holds exactly
one S010 entry for it, at line 1. -/
theorem c4_s010_once_at_first_line_witness :
    ((["Bad_Name"] : List String).Nodup ∧
      "Bad_Name" ∈ check_argument_name [⟨"f", [⟨"Bad_Name"⟩], []⟩] ∧
      firstHit "Bad_Name" ["def f(Bad_Name):", "x = Bad_Name"] = some 0) ∧
    (matchTrace ["Bad_Name"] ["def f(Bad_Name):", "x = Bad_Name"] 1).filter
        (fun p => p.2 == "Bad_Name") = [(1 + 0, "Bad_Name")] :=
  ⟨⟨by decide, by decide, by decide⟩,
    c4_s010_once_at_first_line [⟨"f", [⟨"Bad_Name"⟩], []⟩] _ _ _ 0
      (by decide) (fun x => Iff.rfl) (by decide) (by decide)⟩

/-- The backtracking matcher for `\s*[^A-Z]` accepts exactly the lists that
start with a (possibly empty) whitespace run followed by a non-uppercase
character. -/
theorem nonUpAfterWs_iff (l : List Char) :
    nonUpAfterWs l = true ↔
      ∃ w c rest, l = w ++ c :: rest ∧ (∀ x ∈ w, isWs x = true) ∧
        isUpChar c = false := by
  induction l with
  | nil =>
    simp only [nonUpAfterWs]
    constructor
    · intro h; cases h
    · rintro ⟨w, c, rest, heq, -, -⟩
      exact absurd heq (by cases w <;> simp)
  | cons a as ih =>
    rw [nonUpAfterWs, Bool.or_eq_true, Bool.and_eq_true]
    constructor
    · intro h
      rcases h with h | ⟨hws, hrec⟩
      · exact ⟨[], a, as, rfl, by simp, by rw [Bool.not_eq_true'] at h; exact h⟩
      · rcases ih.mp hrec with ⟨w, c, rest, heq, hw, hc⟩
        refine ⟨a :: w, c, rest, by rw [heq]; rfl, ?_, hc⟩
        intro x hx
        rcases List.mem_cons.mp hx with hx | hx
        · rw [hx]; exact hws
        · exact hw x hx
    · rintro ⟨w, c, rest, heq, hw, hc⟩
      cases w with
      | nil =>
        simp only [List.nil_append] at heq
        injection heq with h1 h2
        subst h1
        left
        rw [Bool.not_eq_true']
        exact hc
      | cons w0 ws =>
        simp only [List.cons_append] at heq
        injection heq with h1 h2
        subst h1
        right
        refine ⟨hw a (List.mem_cons_self a ws), ?_⟩
        exact ih.mpr ⟨ws, c, rest, h2, fun x hx => hw x (List.mem_cons_of_mem a hx), hc⟩

/-- A list accepted by `isPre "def".data` starts with those three
characters. -/
theorem isPre_def_shape (l : List Char) (h : isPre "def".data l = true) :
    ∃ t, l = 'd' :: 'e' :: 'f' :: t := by
  have hd : "def".data = ['d', 'e', 'f'] := rfl
  rw [hd] at h
  cases l with
  | nil => simp [isPre] at h
  | cons a l2 =>
    cases l2 with
    | nil => simp [isPre] at h
    | cons b l3 =>
      cases l3 with
      | nil => simp [isPre] at h
      | cons c t =>
        simp only [isPre, Bool.and_eq_true, beq_iff_eq] at h
        rcases h with ⟨h1, h2, h3, -⟩
        exact ⟨t, by rw [← h1, ← h2, ← h3]⟩

/-- The hand-compiled matcher for `^def\s+[^A-Z]` accepts exactly the lists
described by `S9Spec` — `def`, at least one whitespace character, then a
character that is not an uppercase letter. -/
theorem matchDefNonUpper_iff (l : List Char) :
    matchDefNonUpper l = true ↔ S9Spec l := by
  constructor
  · intro h
    rw [matchDefNonUpper, Bool.and_eq_true] at h
    rcases h with ⟨hpre, hrest⟩
    rcases isPre_def_shape l hpre with ⟨t, rfl⟩
    simp only [List.drop_succ_cons, List.drop_zero] at hrest
    cases t with
    | nil => cases hrest
    | cons a as =>
      rw [Bool.and_eq_true] at hrest
      rcases hrest with ⟨hws, hafter⟩
      rcases (nonUpAfterWs_iff as).mp hafter with ⟨w, c, rest, heq, hw, hc⟩
      refine ⟨a :: w, c, rest, ?_, by simp, ?_, hc⟩
      · rw [heq]; rfl
      · intro x hx
        rcases List.mem_cons.mp hx with hx | hx
        · rw [hx]; exact hws
        · exact hw x hx
  · rintro ⟨w, c, rest, heq, hne, hw, hc⟩
    subst heq
    cases w with
    | nil => exact absurd rfl hne
    | cons w0 ws =>
      rw [matchDefNonUpper, Bool.and_eq_true]
      constructor
      · have hd : "def".data = ['d', 'e', 'f'] := rfl
        rw [hd]
        simp [isPre]
      · simp only [List.cons_append, List.drop_succ_cons, List.drop_zero]
        rw [Bool.and_eq_true]
        refine ⟨hw w0 (List.mem_cons_self w0 ws), ?_⟩
        exact (nonUpAfterWs_iff _).mpr
          ⟨ws, c, rest, rfl, fun x hx => hw x (List.mem_cons_of_mem w0 hx), hc⟩

/-- Claim C8: S009 fires on a line exactly when the line contains the
substring `def` and the left-trimmed line does not match `^def\s+[^A-Z]`
(stated through `S9Spec`); in particular `def Foo():` is flagged while
`def foo():` and `def my_Func():` are not — the check only rejects an
uppercase first letter, it does not validate full snake_case. -/
theorem c8_s009_iff_inverted_regex :
    check_func_name "def Foo():" = true ∧
    check_func_name "def foo():" = false ∧
    check_func_name "def my_Func():" = false ∧
    ∀ line : String, check_func_name line = true ↔
      (strIn "def" line = true ∧ ¬ S9Spec (pyLstrip line.data)) := by
  refine ⟨by decide, by decide, by decide, ?_⟩
  intro line
  rw [check_func_name, Bool.and_eq_true]
  constructor
  · rintro ⟨h1, h2⟩
    refine ⟨h1, fun hs => ?_⟩
    rw [(matchDefNonUpper_iff _).mpr hs] at h2
    exact absurd h2 (by decide)
  · rintro ⟨h1, h2⟩
    refine ⟨h1, ?_⟩
    rw [Bool.not_eq_true']
    cases hb : matchDefNonUpper (pyLstrip line.data)
    · rfl
    · exact absurd ((matchDefNonUpper_iff _).mp hb) h2

/-- Everything emitted by `emitIf` is the guarded code. -/
theorem mem_emitIf (b : Bool) (c : RuleCode) : ∀ a ∈ emitIf b c, a = c := by
  intro a ha
  cases b
  · simp [emitIf] at ha
  · simp [emitIf] at ha; exact ha

/-- A constant list is sorted under the emission order. -/
theorem pairwise_of_const (ys : List RuleCode) (c : RuleCode)
    (hy : ∀ a ∈ ys, a = c) : List.Pairwise codeLe ys := by
  induction ys with
  | nil => exact List.Pairwise.nil
  | cons a as ih =>
    refine List.Pairwise.cons ?_ (ih fun x hx => hy x (List.mem_cons_of_mem a hx))
    intro b hb
    have ha := hy a (List.mem_cons_self a as)
    have hbc := hy b (List.mem_cons_of_mem a hb)
    rw [ha, hbc]
    exact Nat.le_refl _

/-- Base case of the block chain: a constant block is sorted and bounded by
its own code. -/
theorem pairwise_const_base (ys : List RuleCode) (c : RuleCode)
    (hy : ∀ a ∈ ys, a = c) :
    List.Pairwise codeLe ys ∧ ∀ a ∈ ys, a.idx ≤ c.idx :=
  ⟨pairwise_of_const ys c hy, fun a ha => by rw [hy a ha]⟩

/-- Chain step: appending a constant block of a later code keeps the list
sorted and bounded. -/
theorem pairwise_append_const (xs ys : List RuleCode) (c : RuleCode)
    (hx : List.Pairwise codeLe xs) (hub : ∀ a ∈ xs, a.idx ≤ c.idx)
    (hy : ∀ a ∈ ys, a = c) :
    List.Pairwise codeLe (xs ++ ys) ∧ ∀ a ∈ xs ++ ys, a.idx ≤ c.idx := by
  constructor
  · rw [List.pairwise_append]
    refine ⟨hx, pairwise_of_const ys c hy, ?_⟩
    intro a ha b hb
    have hbc := hy b hb
    show a.idx ≤ b.idx
    rw [hbc]
    exact hub a ha
  · intro a ha
    rcases List.mem_append.mp ha with h | h
    · exact hub a h
    · rw [hy a h]

/-- The code block emitted before an S003 crash is sorted. -/
theorem pairwise_upto2 (v1 v2 : Bool) :
    List.Pairwise codeLe (emitIf v1 RuleCode.s001 ++ emitIf v2 RuleCode.s002) := by
  have h1 := pairwise_const_base _ _ (mem_emitIf v1 RuleCode.s001)
  exact (pairwise_append_const _ _ RuleCode.s002 h1.1
    (fun a ha => Nat.le_trans (h1.2 a ha) (by decide)) (mem_emitIf v2 _)).1

/-- The code block emitted before an S008 extraction crash is sorted. -/
theorem pairwise_upto7 (v1 v2 v3 v4 v5 v6 v7 : Bool) :
    List.Pairwise codeLe
      (emitIf v1 RuleCode.s001 ++ emitIf v2 RuleCode.s002 ++
        emitIf v3 RuleCode.s003 ++ emitIf v4 RuleCode.s004 ++
        emitIf v5 RuleCode.s005 ++ emitIf v6 RuleCode.s006 ++
        emitIf v7 RuleCode.s007) := by
  have h1 := pairwise_const_base _ _ (mem_emitIf v1 RuleCode.s001)
  have h2 := pairwise_append_const _ _ RuleCode.s002 h1.1
    (fun a ha => Nat.le_trans (h1.2 a ha) (by decide)) (mem_emitIf v2 _)
  have h3 := pairwise_append_const _ _ RuleCode.s003 h2.1
    (fun a ha => Nat.le_trans (h2.2 a ha) (by decide)) (mem_emitIf v3 _)
  have h4 := pairwise_append_const _ _ RuleCode.s004 h3.1
    (fun a ha => Nat.le_trans (h3.2 a ha) (by decide)) (mem_emitIf v4 _)
  have h5 := pairwise_append_const _ _ RuleCode.s005 h4.1
    (fun a ha => Nat.le_trans (h4.2 a ha) (by decide)) (mem_emitIf v5 _)
  have h6 := pairwise_append_const _ _ RuleCode.s006 h5.1
    (fun a ha => Nat.le_trans (h5.2 a ha) (by decide)) (mem_emitIf v6 _)
  exact (pairwise_append_const _ _ RuleCode.s007 h6.1
    (fun a ha => Nat.le_trans (h6.2 a ha) (by decide)) (mem_emitIf v7 _)).1

/-- The code block emitted before an S009 extraction crash is sorted. -/
theorem pairwise_upto8 (v1 v2 v3 v4 v5 v6 v7 v8 : Bool) :
    List.Pairwise codeLe
      (emitIf v1 RuleCode.s001 ++ emitIf v2 RuleCode.s002 ++
        emitIf v3 RuleCode.s003 ++ emitIf v4 RuleCode.s004 ++
        emitIf v5 RuleCode.s005 ++ emitIf v6 RuleCode.s006 ++
        emitIf v7 RuleCode.s007 ++ emitIf v8 RuleCode.s008) := by
  have h1 := pairwise_const_base _ _ (mem_emitIf v1 RuleCode.s001)
  have h2 := pairwise_append_const _ _ RuleCode.s002 h1.1
    (fun a ha => Nat.le_trans (h1.2 a ha) (by decide)) (mem_emitIf v2 _)
  have h3 := pairwise_append_const _ _ RuleCode.s003 h2.1
    (fun a ha => Nat.le_trans (h2.2 a ha) (by decide)) (mem_emitIf v3 _)
  have h4 := pairwise_append_const _ _ RuleCode.s004 h3.1
    (fun a ha => Nat.le_trans (h3.2 a ha) (by decide)) (mem_emitIf v4 _)
  have h5 := pairwise_append_const _ _ RuleCode.s005 h4.1
    (fun a ha => Nat.le_trans (h4.2 a ha) (by decide)) (mem_emitIf v5 _)
  have h6 := pairwise_append_const _ _ RuleCode.s006 h5.1
    (fun a ha => Nat.le_trans (h5.2 a ha) (by decide)) (mem_emitIf v6 _)
  have h7 := pairwise_append_const _ _ RuleCode.s007 h6.1
    (fun a ha => Nat.le_trans (h6.2 a ha) (by decide)) (mem_emitIf v7 _)
  exact (pairwise_append_const _ _ RuleCode.s008 h7.1
    (fun a ha => Nat.le_trans (h7.2 a ha) (by decide)) (mem_emitIf v8 _)).1

/-- The full per-line code block (including the tree-code replicates) is
sorted in the fixed S001..S012 order. -/
theorem pairwise_full (v1 v2 v3 v4 v5 v6 v7 v8 v9 : Bool) (n10 n11 n12 : Nat) :
    List.Pairwise codeLe
      (emitIf v1 RuleCode.s001 ++ emitIf v2 RuleCode.s002 ++
        emitIf v3 RuleCode.s003 ++ emitIf v4 RuleCode.s004 ++
        emitIf v5 RuleCode.s005 ++ emitIf v6 RuleCode.s006 ++
        emitIf v7 RuleCode.s007 ++ emitIf v8 RuleCode.s008 ++
        emitIf v9 RuleCode.s009 ++ List.replicate n10 RuleCode.s010 ++
        List.replicate n11 RuleCode.s011 ++ List.replicate n12 RuleCode.s012) := by
  have h1 := pairwise_const_base _ _ (mem_emitIf v1 RuleCode.s001)
  have h2 := pairwise_append_const _ _ RuleCode.s002 h1.1
    (fun a ha => Nat.le_trans (h1.2 a ha) (by decide)) (mem_emitIf v2 _)
  have h3 := pairwise_append_const _ _ RuleCode.s003 h2.1
    (fun a ha => Nat.le_trans (h2.2 a ha) (by decide)) (mem_emitIf v3 _)
  have h4 := pairwise_append_const _ _ RuleCode.s004 h3.1
    (fun a ha => Nat.le_trans (h3.2 a ha) (by decide)) (mem_emitIf v4 _)
  have h5 := pairwise_append_const _ _ RuleCode.s005 h4.1
    (fun a ha => Nat.le_trans (h4.2 a ha) (by decide)) (mem_emitIf v5 _)
  have h6 := pairwise_append_const _ _ RuleCode.s006 h5.1
    (fun a ha => Nat.le_trans (h5.2 a ha) (by decide)) (mem_emitIf v6 _)
  have h7 := pairwise_append_const _ _ RuleCode.s007 h6.1
    (fun a ha => Nat.le_trans (h6.2 a ha) (by decide)) (mem_emitIf v7 _)
  have h8 := pairwise_append_const _ _ RuleCode.s008 h7.1
    (fun a ha => Nat.le_trans (h7.2 a ha) (by decide)) (mem_emitIf v8 _)
  have h9 := pairwise_append_const _ _ RuleCode.s009 h8.1
    (fun a ha => Nat.le_trans (h8.2 a ha) (by decide)) (mem_emitIf v9 _)
  have h10 := pairwise_append_const _ (List.replicate n10 RuleCode.s010)
    RuleCode.s010 h9.1
    (fun a ha => Nat.le_trans (h9.2 a ha) (by decide))
    (fun a ha => List.eq_of_mem_replicate ha)
  have h11 := pairwise_append_const _ (List.replicate n11 RuleCode.s011)
    RuleCode.s011 h10.1
    (fun a ha => Nat.le_trans (h10.2 a ha) (by decide))
    (fun a ha => List.eq_of_mem_replicate ha)
  exact (pairwise_append_const _ (List.replicate n12 RuleCode.s012)
    RuleCode.s012 h11.1
    (fun a ha => Nat.le_trans (h11.2 a ha) (by decide))
    (fun a ha => List.eq_of_mem_replicate ha)).1

/-- The codes emitted by a raising line iteration are in emission order. -/
theorem lineStep_error_pairwise (lines : List String) (i : Nat) (st : CheckSt)
    (cs : List RuleCode) (h : lineStep lines i st = Except.error cs) :
    List.Pairwise codeLe cs := by
  simp only [lineStep] at h
  split at h
  · injection h with h2
    subst h2
    exact pairwise_upto2 _ _
  · split at h
    · injection h with h2
      subst h2
      exact pairwise_upto7 _ _ _ _ _ _ _
    · split at h
      · injection h with h2
        subst h2
        exact pairwise_upto8 _ _ _ _ _ _ _ _
      · split at h
        · injection h with h2
          subst h2
          exact pairwise_full _ _ _ _ _ _ _ _ _ _ _ _
        · exact Except.noConfusion h

/-- The codes emitted by a completing line iteration are in emission
order. -/
theorem lineStep_ok_pairwise (lines : List String) (i : Nat) (st : CheckSt)
    (cs : List RuleCode) (st2 : CheckSt)
    (h : lineStep lines i st = Except.ok (cs, st2)) :
    List.Pairwise codeLe cs := by
  simp only [lineStep] at h
  split at h
  · exact Except.noConfusion h
  · split at h
    · exact Except.noConfusion h
    · split at h
      · exact Except.noConfusion h
      · split at h
        · exact Except.noConfusion h
        · injection h with h2
          have h3 : _ = cs := congrArg Prod.fst h2
          subst h3
          exact pairwise_full _ _ _ _ _ _ _ _ _ _ _ _

/-- Every diagnostic produced from line index `i` onward is at line `i + 1`
or later. -/
theorem runFromAux_line_lb (lines : List String) :
    ∀ (fuel i : Nat) (st : CheckSt) (d : Diag),
      d ∈ (runFromAux lines fuel i st).1 → i + 1 ≤ d.line := by
  intro fuel
  induction fuel with
  | zero => intro i st d h; cases h
  | succ n ih =>
    intro i st d h
    rw [runFromAux] at h
    cases he : lineStep lines i st with
    | error cs =>
      rw [he] at h
      rcases List.mem_map.mp h with ⟨c, -, hc⟩
      rw [← hc]
    | ok p =>
      rw [he] at h
      obtain ⟨cs, st2⟩ := p
      rcases List.mem_append.mp h with h | h
      · rcases List.mem_map.mp h with ⟨c, -, hc⟩
        rw [← hc]
      · exact Nat.le_trans (by omega) (ih (i + 1) st2 d h)

/-- Mapping a sorted code block onto one line produces a sorted diagnostic
block. -/
theorem map_diag_pairwise (i : Nat) (cs : List RuleCode)
    (h : List.Pairwise codeLe cs) :
    List.Pairwise diagLe (cs.map fun c => Diag.mk i c) := by
  rw [List.pairwise_map]
  refine h.imp ?_
  intro a b hab
  exact Or.inr ⟨rfl, hab⟩

/-- The diagnostics produced from any starting line are sorted by line and
code. -/
theorem runFromAux_pairwise (lines : List String) :
    ∀ (fuel i : Nat) (st : CheckSt),
      List.Pairwise diagLe (runFromAux lines fuel i st).1 := by
  intro fuel
  induction fuel with
  | zero => intro i st; exact List.Pairwise.nil
  | succ n ih =>
    intro i st
    rw [runFromAux]
    cases he : lineStep lines i st with
    | error cs =>
      exact map_diag_pairwise _ _ (lineStep_error_pairwise _ _ _ _ he)
    | ok p =>
      obtain ⟨cs, st2⟩ := p
      refine List.pairwise_append.mpr
        ⟨map_diag_pairwise _ _ (lineStep_ok_pairwise _ _ _ _ _ he),
          ih (i + 1) st2, ?_⟩
      intro a ha b hb
      rcases List.mem_map.mp ha with ⟨c, -, hc⟩
      have hbl := runFromAux_line_lb lines n (i + 1) st2 b hb
      left
      rw [← hc]
      show i + 1 < b.line
      omega

/-- Claim C6: within one file the emitted diagnostic sequence is sorted by
ascending 1-based line number, and among diagnostics of one line by the
fixed code order S001..S009 then S010, S011, S012 (the order induced by
`RuleCode.idx`) — for every file content and every state of the three
tree-derived candidate sets. -/
theorem c6_output_sorted (lines : List String) (args vars : List String)
    (muts : List MutCand) :
    List.Pairwise diagLe (runCheck lines args vars muts).1 :=
  runFromAux_pairwise lines lines.length 0 ⟨args, vars, muts⟩

/-- On a candidate list that holds only names (no raw nodes), the S012 loop
never raises: it emits one diagnostic per matching name and keeps the
rest. -/
theorem s012Loop_inl (l : String) (ms : List String) :
    s012Loop l (ms.map Sum.inl) =
      Except.ok ((ms.filter fun s => isSub s.data l.data).length,
        (ms.filter fun s => !(isSub s.data l.data)).map Sum.inl) := by
  induction ms with
  | nil => rfl
  | cons a as ih =>
    rw [List.map_cons, s012Loop]
    by_cases h : isSub a.data l.data = true
    · rw [if_pos h, ih]
      simp [List.filter_cons, h]
    · rw [if_neg h, ih]
      simp [List.filter_cons, h, Bool.eq_false_iff.mpr h]

/-- The run is invariant under reordering of the three candidate lists when
the S012 candidates are all names: every per-line emission only depends on
how many candidates match the line, and the surviving candidates are the
non-matching ones — both invariant under permutation. -/
theorem runFromAux_perm (lines : List String) :
    ∀ (fuel i : Nat) (a1 a2 v1 v2 m1 m2 : List String),
      a1.Perm a2 → v1.Perm v2 → m1.Perm m2 →
      runFromAux lines fuel i ⟨a1, v1, m1.map Sum.inl⟩ =
        runFromAux lines fuel i ⟨a2, v2, m2.map Sum.inl⟩ := by
  intro fuel
  induction fuel with
  | zero => intro i a1 a2 v1 v2 m1 m2 _ _ _; rfl
  | succ n ih =>
    intro i a1 a2 v1 v2 m1 m2 ha hv hm
    rw [runFromAux, runFromAux]
    simp only [lineStep]
    cases h3 : check_semicolons (lines.getD i "") with
    | error u => rfl
    | ok v3 =>
      cases h8 : s008Emit (lines.getD i "") with
      | error u => rfl
      | ok v8 =>
        cases h9 : s009Emit (lines.getD i "") with
        | error u => rfl
        | ok v9 =>
          rw [s012Loop_inl, s012Loop_inl,
            consumeAll_eq_filter, consumeAll_eq_filter,
            consumeAll_eq_filter, consumeAll_eq_filter]
          have hl10 : (a1.filter fun c => isSub c.data (lines.getD i "").data).length =
              (a2.filter fun c => isSub c.data (lines.getD i "").data).length :=
            (ha.filter _).length_eq
          have hl11 : (v1.filter fun c => isSub c.data (lines.getD i "").data).length =
              (v2.filter fun c => isSub c.data (lines.getD i "").data).length :=
            (hv.filter _).length_eq
          have hl12 : (m1.filter fun s => isSub s.data (lines.getD i "").data).length =
              (m2.filter fun s => isSub s.data (lines.getD i "").data).length :=
            (hm.filter _).length_eq
          have hrec := ih (i + 1)
            (a1.filter fun c => !(isSub c.data (lines.getD i "").data))
            (a2.filter fun c => !(isSub c.data (lines.getD i "").data))
            (v1.filter fun c => !(isSub c.data (lines.getD i "").data))
            (v2.filter fun c => !(isSub c.data (lines.getD i "").data))
            (m1.filter fun s => !(isSub s.data (lines.getD i "").data))
            (m2.filter fun s => !(isSub s.data (lines.getD i "").data))
            (ha.filter _) (hv.filter _) (hm.filter _)
          simp only [hl10, hl11, hl12, hrec]

/-- Counterexample to claim C7: for `def g(x=[], y=list()):` the S012
candidate set holds the name `g` and a raw node (the C1 bug), and
`list(set)` may enumerate it in either order; with the name first one S012
diagnostic is printed before the `TypeError`, with the node first none is —
the two orders give different output, so a rerun of the same unmodified
file can differ byte-wise. -/
theorem c7_order_dependent_output :
    check_mutable_value [⟨"g", [⟨"x"⟩, ⟨"y"⟩], [PyExpr.elist, PyExpr.call "list"]⟩] =
      [Sum.inl "g",
        Sum.inr ⟨"g", [⟨"x"⟩, ⟨"y"⟩], [PyExpr.elist, PyExpr.call "list"]⟩] ∧
    List.Perm
      ([Sum.inl "g",
        Sum.inr ⟨"g", [⟨"x"⟩, ⟨"y"⟩], [PyExpr.elist, PyExpr.call "list"]⟩] : List MutCand)
      [Sum.inr ⟨"g", [⟨"x"⟩, ⟨"y"⟩], [PyExpr.elist, PyExpr.call "list"]⟩,
        Sum.inl "g"] ∧
    runCheck ["def g(x=[], y=list()):"] [] []
        [Sum.inl "g",
          Sum.inr ⟨"g", [⟨"x"⟩, ⟨"y"⟩], [PyExpr.elist, PyExpr.call "list"]⟩] ≠
      runCheck ["def g(x=[], y=list()):"] [] []
        [Sum.inr ⟨"g", [⟨"x"⟩, ⟨"y"⟩], [PyExpr.elist, PyExpr.call "list"]⟩,
          Sum.inl "g"] :=
  ⟨by decide, List.Perm.swap _ _ _, by decide⟩

/-- Claim C7 as amended: when every S012 candidate is a name (no default
argument is a constructor call, so the run never hits the `TypeError`),
the diagnostic output is a deterministic function of the file's lines —
independent of the iteration order of the three candidate sets. -/
theorem c7_deterministic_without_call_defaults
    (lines : List String) (args1 args2 vars1 vars2 ms1 ms2 : List String)
    (ha : args1.Perm args2) (hv : vars1.Perm vars2) (hm : ms1.Perm ms2) :
    runCheck lines args1 vars1 (ms1.map Sum.inl) =
      runCheck lines args2 vars2 (ms2.map Sum.inl) :=
  runFromAux_perm lines lines.length 0 args1 args2 vars1 vars2 ms1 ms2 ha hv hm

/-- Witness for the amended C7: two enumeration orders of the same
candidate sets produce identical output on a concrete file. -/
theorem c7_deterministic_without_call_defaults_witness :
    (List.Perm ["A", "B"] ["B", "A"] ∧
      List.Perm ([] : List String) [] ∧ List.Perm ["f"] ["f"]) ∧
    runCheck ["def f(A, B):"] ["A", "B"] [] (["f"].map Sum.inl) =
      runCheck ["def f(A, B):"] ["B", "A"] [] (["f"].map Sum.inl) :=
  ⟨⟨List.Perm.swap _ _ _, List.Perm.refl _, List.Perm.refl _⟩,
    c7_deterministic_without_call_defaults _ _ _ _ _ _ _
      (List.Perm.swap _ _ _) (List.Perm.refl _) (List.Perm.refl _)⟩

/-- Claim C5 as amended, per-line behaviour of the tree-code loops on a
non-raising line: the number of S010 (resp. S011, S012) diagnostics
emitted on the line equals the number of candidates of that set that occur
in the line as substrings — one diagnostic per matching candidate, not at
most one per line — and exactly the non-matching candidates survive to the
next line. -/
theorem c5_all_matches_consumed_per_line
    (lines : List String) (i : Nat) (st : CheckSt) (cs : List RuleCode)
    (st2 : CheckSt) (h : lineStep lines i st = Except.ok (cs, st2)) :
    (cs.count RuleCode.s010 =
        (st.checked_args.filter fun c =>
          isSub c.data (lines.getD i "").data).length ∧
      cs.count RuleCode.s011 =
        (st.checked_variables.filter fun c =>
          isSub c.data (lines.getD i "").data).length) ∧
    (st2.checked_args =
        st.checked_args.filter fun c => !(isSub c.data (lines.getD i "").data)) ∧
    (st2.checked_variables =
        st.checked_variables.filter fun c =>
          !(isSub c.data (lines.getD i "").data)) ∧
    ∀ ms : List String, st.checked_default_variables = ms.map Sum.inl →
      cs.count RuleCode.s012 =
          (ms.filter fun s => isSub s.data (lines.getD i "").data).length ∧
        st2.checked_default_variables =
          (ms.filter fun s => !(isSub s.data (lines.getD i "").data)).map Sum.inl := by
  cases h3 : check_semicolons (lines.getD i "") with
  | error u =>
    simp only [lineStep, h3] at h
    exact Except.noConfusion h
  | ok v3 =>
    cases h8 : s008Emit (lines.getD i "") with
    | error u =>
      simp only [lineStep, h3, h8] at h
      exact Except.noConfusion h
    | ok v8 =>
      cases h9 : s009Emit (lines.getD i "") with
      | error u =>
        simp only [lineStep, h3, h8, h9] at h
        exact Except.noConfusion h
      | ok v9 =>
        cases h12 : s012Loop (lines.getD i "") st.checked_default_variables with
        | error nn =>
          simp only [lineStep, h3, h8, h9, h12] at h
          exact Except.noConfusion h
        | ok p12 =>
          obtain ⟨n12, k12⟩ := p12
          simp only [lineStep, h3, h8, h9, h12] at h
          injection h with h2
          rw [Prod.mk.injEq] at h2
          obtain ⟨hcs, hst⟩ := h2
          subst hcs
          subst hst
          rw [consumeAll_eq_filter, consumeAll_eq_filter]
          refine ⟨⟨?_, ?_⟩, rfl, rfl, ?_⟩
          · simp [List.count_append, List.count_replicate, emitIf]
          · simp [List.count_append, List.count_replicate, emitIf]
          · intro ms hms
            rw [hms, s012Loop_inl] at h12
            injection h12 with h12a
            rw [Prod.mk.injEq] at h12a
            obtain ⟨hn, hk⟩ := h12a
            constructor
            · simp only [List.getD_eq_getElem?_getD] at hn
              simp [List.count_append, List.count_replicate, emitIf]
              exact hn.symm
            · exact hk.symm

/-- Witness for the amended C5: on `def f(A, B):` with candidate set
`{A, B}` the line emits two S010 diagnostics — one per matching
candidate — and both candidates are consumed. -/
theorem c5_all_matches_consumed_per_line_witness :
    (lineStep ["def f(A, B):"] 0 ⟨["A", "B"], [], []⟩ =
      Except.ok ([RuleCode.s010, RuleCode.s010], ⟨[], [], []⟩)) ∧
    (([RuleCode.s010, RuleCode.s010].count RuleCode.s010 =
        ((CheckSt.mk ["A", "B"] [] []).checked_args.filter fun c =>
          isSub c.data ((["def f(A, B):"] : List String).getD 0 "").data).length ∧
      [RuleCode.s010, RuleCode.s010].count RuleCode.s011 =
        ((CheckSt.mk ["A", "B"] [] []).checked_variables.filter fun c =>
          isSub c.data ((["def f(A, B):"] : List String).getD 0 "").data).length) ∧
     ((CheckSt.mk [] [] []).checked_args =
        (CheckSt.mk ["A", "B"] [] []).checked_args.filter fun c =>
          !(isSub c.data ((["def f(A, B):"] : List String).getD 0 "").data)) ∧
     ((CheckSt.mk [] [] []).checked_variables =
        (CheckSt.mk ["A", "B"] [] []).checked_variables.filter fun c =>
          !(isSub c.data ((["def f(A, B):"] : List String).getD 0 "").data)) ∧
     ∀ ms : List String,
        (CheckSt.mk ["A", "B"] [] []).checked_default_variables =
          ms.map Sum.inl →
        [RuleCode.s010, RuleCode.s010].count RuleCode.s012 =
            (ms.filter fun s =>
              isSub s.data ((["def f(A, B):"] : List String).getD 0 "").data).length ∧
          (CheckSt.mk [] [] []).checked_default_variables =
            (ms.filter fun s =>
              !(isSub s.data
                ((["def f(A, B):"] : List String).getD 0 "").data)).map Sum.inl) :=
  ⟨rfl, c5_all_matches_consumed_per_line _ _ _ _ _ rfl⟩

/-- The lexicographic comparison is total. -/
theorem lexLe_total : ∀ x y : List Char, lexLe x y = true ∨ lexLe y x = true := by
  intro x
  induction x with
  | nil => intro y; left; rfl
  | cons a as ih =>
    intro y
    cases y with
    | nil => right; rfl
    | cons b bs =>
      by_cases hab : a = b
      · subst hab
        rcases ih bs with h | h
        · left; rw [lexLe]; simp [h]
        · right; rw [lexLe]; simp [h]
      · rcases lt_or_gt_of_ne hab with h | h
        · left; rw [lexLe]; simp [hab, h]
        · right; rw [lexLe]; simp [Ne.symm hab, h]

/-- The lexicographic comparison is transitive. -/
theorem lexLe_trans : ∀ x y z : List Char,
    lexLe x y = true → lexLe y z = true → lexLe x z = true := by
  intro x
  induction x with
  | nil => intro y z _ _; rfl
  | cons a as ih =>
    intro y z hxy hyz
    cases y with
    | nil => exact absurd hxy (by simp [lexLe])
    | cons b bs =>
      cases z with
      | nil => exact absurd hyz (by simp [lexLe])
      | cons c cs =>
        rw [lexLe] at hxy hyz ⊢
        by_cases hab : a = b
        · subst hab
          by_cases hbc : a = c
          · subst hbc
            rw [if_pos rfl] at hxy hyz ⊢
            exact ih bs cs hxy hyz
          · rw [if_pos rfl] at hxy
            rw [if_neg hbc] at hyz ⊢
            exact hyz
        · by_cases hbc : b = c
          · subst hbc
            rw [if_neg hab] at hxy ⊢
            exact hxy
          · rw [if_neg hab] at hxy
            rw [if_neg hbc] at hyz
            have h1 : a < b := of_decide_eq_true hxy
            have h2 : b < c := of_decide_eq_true hyz
            have hac : ¬a = c := fun he => absurd (he ▸ lt_trans h1 h2) (lt_irrefl _)
            rw [if_neg hac]
            exact decide_eq_true (lt_trans h1 h2)

/-- Claim C9 as amended: in directory mode exactly the entries accepted by
the prefix regex `test_[0-9]*.py` (unescaped dot, possibly zero digits, no
end anchor — `reTestMatch`) are checked, each exactly once when the
directory listing has no duplicates, in ascending lexicographic order; on
the claim's example only `test_1.py` then `test_2.py` are checked and
`other.py` is skipped. -/
theorem c9_prefix_regex_filter_sorted (entries : List String)
    (hnd : entries.Nodup) :
    ((checkedFiles entries).Nodup ∧
      (∀ f, f ∈ checkedFiles entries ↔ f ∈ entries ∧ reTestMatch f = true) ∧
      List.Pairwise (fun a b => strLe a b = true) (checkedFiles entries)) ∧
    checkedFiles ["test_2.py", "test_1.py", "other.py"] =
      ["test_1.py", "test_2.py"] := by
  refine ⟨⟨?_, ?_, ?_⟩, by decide⟩
  · exact List.Nodup.filter _
      ((List.perm_insertionSort _ entries).nodup_iff.mpr hnd)
  · intro f
    rw [checkedFiles, List.mem_filter]
    constructor
    · rintro ⟨hm, hr⟩
      exact ⟨(List.perm_insertionSort _ entries).mem_iff.mp hm, hr⟩
    · rintro ⟨hm, hr⟩
      exact ⟨(List.perm_insertionSort _ entries).mem_iff.mpr hm, hr⟩
  · haveI : IsTotal String fun a b => strLe a b = true :=
      ⟨fun a b => lexLe_total a.data b.data⟩
    haveI : IsTrans String fun a b => strLe a b = true :=
      ⟨fun a b c => lexLe_trans a.data b.data c.data⟩
    exact List.Pairwise.sublist (List.filter_sublist _)
      (List.sorted_insertionSort _ entries)

/-- Witness for the amended C9 at its own example directory. -/
theorem c9_prefix_regex_filter_sorted_witness :
    (["test_2.py", "test_1.py", "other.py"] : List String).Nodup ∧
    (((checkedFiles ["test_2.py", "test_1.py", "other.py"]).Nodup ∧
      (∀ f, f ∈ checkedFiles ["test_2.py", "test_1.py", "other.py"] ↔
        f ∈ (["test_2.py", "test_1.py", "other.py"] : List String) ∧
          reTestMatch f = true) ∧
      List.Pairwise (fun a b => strLe a b = true)
        (checkedFiles ["test_2.py", "test_1.py", "other.py"])) ∧
     checkedFiles ["test_2.py", "test_1.py", "other.py"] =
       ["test_1.py", "test_2.py"]) :=
  ⟨by decide, c9_prefix_regex_filter_sorted _ (by decide)⟩
